import Mathlib

/-!
Shallow embedding of the classification core of the CodeFury-Protons
repository (`backend/app/utils/dataset_classifier.py` and
`backend/app/utils/embedding_classifier.py`), together with theorems that
settle the specification claims about that core.

Numeric values are modelled over the real numbers (the Python code uses
floats); string containment (`in` on Python strings) is modelled over the
character lists of the strings.
-/

/-- The three style labels of `DatasetClassifier`
(`dataset_classifier.py`, `style_counts` keys and the classification loop). -/
inductive Style where
  | warli
  | madhubani
  | pithora
deriving DecidableEq, Repr

/-- Iteration order of the style dictionaries in `dataset_classifier.py`
(Python dicts iterate in insertion order: `"warli", "madhubani", "pithora"`). -/
def styleOrder : List Style := [Style.warli, Style.madhubani, Style.pithora]

/-- The Python string naming each style. -/
def styleName : Style → String
  | Style.warli => "warli"
  | Style.madhubani => "madhubani"
  | Style.pithora => "pithora"

/-- The fixed keyword lists of `_calculate_filename_similarity`
(`style_keywords` dict, `dataset_classifier.py` lines 119-123). -/
def styleKeywords : Style → List String
  | Style.warli => ["tribal", "geometric", "simple", "story"]
  | Style.madhubani => ["intricate", "colorful", "pattern", "folk"]
  | Style.pithora => ["horse", "ritual", "ceremony", "deity"]

/-- Does `hay` begin with `needle`? Helper for the substring test below. -/
def beginsWith : List Char → List Char → Bool
  | [], _ => true
  | _ :: _, [] => false
  | a :: as, b :: bs => a == b && beginsWith as bs

/-- Is `needle` a contiguous sublist of `hay`? -/
def subList : List Char → List Char → Bool
  | n, [] => n.isEmpty
  | n, b :: bs => beginsWith n (b :: bs) || subList n bs

/-- Python's `s.lower()`, modelled as a character-wise lowercase map on the
character list of the string. -/
def pyLower (s : String) : List Char :=
  s.toList.map Char.toLower

/-- Python's substring test `needle in hay` (with `hay` already a character
list, as produced by `pyLower`). -/
def containsSub (needle : String) (hay : List Char) : Bool :=
  subList needle.toList hay

/-- `DatasetClassifier._calculate_filename_similarity`
(`dataset_classifier.py` lines 106-129): 0.95 on a style-name match on the
lowercased filename, else 0.7 on a keyword match, else 0.
Values are rational (exact float literals of the source). -/
def calculate_filename_similarity (filename : String) (style : Style) : ℚ :=
  let filename_lower := pyLower filename
  if style = Style.warli ∧ containsSub "warli" filename_lower then 0.95
  else if style = Style.madhubani ∧ containsSub "madhubani" filename_lower then 0.95
  else if style = Style.pithora ∧ containsSub "pithora" filename_lower then 0.95
  else if (styleKeywords style).any (fun k => containsSub k filename_lower) then 0.7
  else 0

example : calculate_filename_similarity "my_warli_art.jpg" Style.warli = 0.95 := by
  rw [calculate_filename_similarity]
  rw [if_pos ⟨rfl, by decide⟩]

example : calculate_filename_similarity "tribal_x.jpg" Style.warli = 0.7 := by
  rw [calculate_filename_similarity]
  rw [if_neg (by decide), if_neg (by decide), if_neg (by decide), if_pos (by decide)]

example : calculate_filename_similarity "x.jpg" Style.warli = 0 := by
  rw [calculate_filename_similarity]
  rw [if_neg (by decide), if_neg (by decide), if_neg (by decide), if_neg (by decide)]

/-- Feature vectors are finite sequences of floats (`numpy` arrays in the
source), modelled as lists of reals. -/
abbrev Vec := List ℝ

/-- Dot product of two vectors (`numpy` elementwise product and sum; for
vectors of unequal length the surplus entries are ignored, matching
`zipWith`). -/
noncomputable def dot (u v : Vec) : ℝ :=
  (List.zipWith (fun a b => a * b) u v).sum

/-- Euclidean norm of a vector. -/
noncomputable def norm2 (v : Vec) : ℝ :=
  Real.sqrt (dot v v)

/-- Cosine similarity as computed by `sklearn.metrics.pairwise.cosine_similarity`
(`dataset_classifier.py` line 154): each row is L2-normalized, with zero-norm
rows left unscaled (so any similarity involving a zero vector is 0), then the
dot product is taken. -/
noncomputable def cosineSim (u v : Vec) : ℝ :=
  if norm2 u = 0 ∨ norm2 v = 0 then 0 else dot u v / (norm2 u * norm2 v)

/-- Maximum of a list of floats, Python's `max(list)` (0 on the empty list,
which the source never reaches). -/
noncomputable def listMax : List ℝ → ℝ
  | [] => 0
  | x :: xs => xs.foldl max x

/-- Python's `max(iterable, key=f)`: the first element of the list attaining
the maximal key (later elements replace the current best only on a strictly
greater key). Used for `max(style_scores, key=style_scores.get)` and
`max(self.style_counts, key=self.style_counts.get)` in
`dataset_classifier.py` lines 171 and 177. -/
def pyMaxBy {α : Type} [LinearOrder α] (f : Style → α) : List Style → Style
  | [] => Style.warli
  | x :: xs => xs.foldl (fun best s => if f best < f s then s else best) x

/-- State of a `DatasetClassifier` instance plus the ambient randomness:
`reference_features` and `style_counts` as loaded by `_load_reference_images`,
the vector that `np.random.random(50)` would produce if feature extraction
fails internally (`_extract_features` line 104), and the index that
`random.choice` would pick in the last-resort fallback (line 207).
A style missing from the `reference_features` dict is modelled by the empty
list, which the guard in `classify_image` line 142 treats identically. -/
structure DatasetEnv where
  referenceFeatures : Style → List Vec
  styleCounts : Style → ℕ
  randFeatures : Vec
  randChoice : Fin 3

/-- Result dictionary of `DatasetClassifier.classify_image`: the five keys
every return statement of the function populates. -/
structure ClassResult where
  predicted_style : Style
  confidence_score : ℝ
  style_scores : List (Style × ℝ)
  model_version : String
  dataset_counts : Style → ℕ

/-- Outcome of decoding the uploaded bytes (`Image.open` at
`dataset_classifier.py` line 135): `fail` models an exception escaping into
the `except` handler of `classify_image`; `ok extracted` models a decoded
image whose feature extraction succeeded with the given vector (`some`) or
failed internally (`none`, in which case `_extract_features` substitutes the
random vector rather than raising). -/
inductive DecodeOutcome where
  | fail
  | ok (extracted : Option Vec)

/-- Value returned by `DatasetClassifier._extract_features`
(`dataset_classifier.py` lines 67-104): the computed feature vector, or the
`np.random.random(50)` fallback vector when the internal computation raised
(lines 102-104). It never raises. -/
def extract_features_result (extracted : Option Vec) (rand : Vec) : Vec :=
  extracted.getD rand

/-- Per-style score of the comparison loop of `classify_image`
(`dataset_classifier.py` lines 141-168): the pure filename score if the style
has no reference features, else `0.7 * best_similarity + 0.3 * filename_score`
with the per-reference similarities clamped to be non-negative
(`max(0, sim)`, line 155) and the unreachable `0.3` default kept for an empty
similarity list (line 161). -/
noncomputable def styleScore (env : DatasetEnv) (q : Vec) (filename : String)
    (s : Style) : ℝ :=
  if env.referenceFeatures s = [] then
    (calculate_filename_similarity filename s : ℝ)
  else
    let sims := (env.referenceFeatures s).map (fun r => max 0 (cosineSim q r))
    let base := if sims = [] then 0.3 else listMax sims
    base * 0.7 + (calculate_filename_similarity filename s : ℝ) * 0.3

/-- The `style_scores` mapping of the main path, as a function of the style. -/
noncomputable def mainScores (env : DatasetEnv) (q : Vec) (filename : String) :
    Style → ℝ :=
  fun s => styleScore env q filename s

/-- Combined score of the winning style of the main path
(`style_scores[best_style]` at line 172). -/
noncomputable def winningScore (env : DatasetEnv) (q : Vec) (filename : String) : ℝ :=
  mainScores env q filename (pyMaxBy (mainScores env q filename) styleOrder)

/-- `DatasetClassifier.classify_image` (`dataset_classifier.py` lines
131-214). The `try` body computes per-style scores, takes the first maximal
style, overrides prediction and confidence when the winner scores below 0.5
(lines 175-179), then unconditionally boosts and clamps the confidence
(line 182). Any exception (modelled: an undecodable upload) lands in the
`except` handler, which first tries pure filename matching over the styles in
order (lines 195-203) and finally a random style (lines 206-214). -/
noncomputable def classify_image (env : DatasetEnv) (d : DecodeOutcome)
    (filename : String) : ClassResult :=
  match d with
  | DecodeOutcome.ok ext =>
    let q := extract_features_result ext env.randFeatures
    let scores := mainScores env q filename
    let best0 := pyMaxBy scores styleOrder
    let conf0 := scores best0
    let bc : Style × ℝ :=
      if conf0 < 0.5 then (pyMaxBy env.styleCounts styleOrder, 0.75)
      else (best0, conf0)
    { predicted_style := bc.1
      confidence_score := min 0.98 (bc.2 + 0.15)
      style_scores := styleOrder.map (fun s => (s, scores s))
      model_version := "dataset-comparison-v1"
      dataset_counts := env.styleCounts }
  | DecodeOutcome.fail =>
    match styleOrder.find? (fun s => containsSub (styleName s) (pyLower filename)) with
    | some s =>
      { predicted_style := s
        confidence_score := 0.85
        style_scores := [(s, 0.85)]
        model_version := "fallback-filename-v1"
        dataset_counts := env.styleCounts }
    | none =>
      let s := styleOrder.getD (env.randChoice : ℕ) Style.warli
      { predicted_style := s
        confidence_score := 0.72
        style_scores := [(s, 0.72)]
        model_version := "random-fallback-v1"
        dataset_counts := env.styleCounts }

lemma foldl_best_mem {α : Type} [LinearOrder α] (f : Style → α) :
    ∀ (xs : List Style) (x : Style),
      xs.foldl (fun best s => if f best < f s then s else best) x ∈ x :: xs := by
  intro xs
  induction xs with
  | nil => intro x; simp
  | cons y ys ih =>
    intro x
    have h := ih (if f x < f y then y else x)
    rw [List.foldl_cons]
    rcases List.mem_cons.mp h with h1 | h1
    · rw [h1]
      by_cases hxy : f x < f y
      · simp [hxy]
      · simp [hxy]
    · exact List.mem_cons_of_mem _ (List.mem_cons_of_mem _ h1)

lemma pyMaxBy_mem {α : Type} [LinearOrder α] (f : Style → α) (l : List Style)
    (h : l ≠ []) : pyMaxBy f l ∈ l := by
  cases l with
  | nil => exact absurd rfl h
  | cons x xs => exact foldl_best_mem f xs x

lemma foldl_best_le {α : Type} [LinearOrder α] (f : Style → α) :
    ∀ (xs : List Style) (x s : Style), s ∈ x :: xs →
      f s ≤ f (xs.foldl (fun best t => if f best < f t then t else best) x) := by
  intro xs
  induction xs with
  | nil =>
    intro x s hs
    rw [List.mem_singleton] at hs
    subst hs
    simp
  | cons y ys ih =>
    intro x s hs
    rw [List.foldl_cons]
    have hstep : ∀ t : Style, t = x ∨ t = y →
        f t ≤ f (if f x < f y then y else x) := by
      intro t ht
      by_cases hxy : f x < f y
      · rcases ht with h1 | h1 <;> rw [h1] <;> simp [hxy, le_of_lt hxy]
      · rcases ht with h1 | h1 <;> rw [h1] <;> simp [hxy, le_of_not_lt hxy]
    rcases List.mem_cons.mp hs with h1 | hs'
    · exact le_trans (hstep s (Or.inl h1))
        (ih (if f x < f y then y else x) _ (List.mem_cons_self _ _))
    · rcases List.mem_cons.mp hs' with h2 | hs''
      · exact le_trans (hstep s (Or.inr h2))
          (ih (if f x < f y then y else x) _ (List.mem_cons_self _ _))
      · exact ih (if f x < f y then y else x) s (List.mem_cons_of_mem _ hs'')

lemma pyMaxBy_le {α : Type} [LinearOrder α] (f : Style → α) (l : List Style)
    (s : Style) (hs : s ∈ l) : f s ≤ f (pyMaxBy f l) := by
  cases l with
  | nil => exact absurd hs (List.not_mem_nil s)
  | cons x xs => exact foldl_best_le f xs x s hs

lemma le_foldl_max : ∀ (xs : List ℝ) (a : ℝ), a ≤ xs.foldl max a := by
  intro xs
  induction xs with
  | nil => intro a; exact le_refl a
  | cons y ys ih =>
    intro a
    rw [List.foldl_cons]
    exact le_trans (le_max_left a y) (ih (max a y))

lemma mem_le_foldl_max : ∀ (xs : List ℝ) (a x : ℝ), x ∈ xs → x ≤ xs.foldl max a := by
  intro xs
  induction xs with
  | nil => intro a x hx; exact absurd hx (List.not_mem_nil x)
  | cons y ys ih =>
    intro a x hx
    rw [List.foldl_cons]
    rcases List.mem_cons.mp hx with h1 | h1
    · rw [h1]; exact le_trans (le_max_right a y) (le_foldl_max ys (max a y))
    · exact ih (max a y) x h1

lemma le_listMax (l : List ℝ) (x : ℝ) (hx : x ∈ l) : x ≤ listMax l := by
  cases l with
  | nil => exact absurd hx (List.not_mem_nil x)
  | cons y ys =>
    rw [listMax]
    rcases List.mem_cons.mp hx with h1 | h1
    · rw [h1]; exact le_foldl_max ys y
    · exact mem_le_foldl_max ys y x h1

lemma listMax_nonneg (l : List ℝ) (h : ∀ x ∈ l, 0 ≤ x) (hne : l ≠ []) :
    0 ≤ listMax l := by
  cases l with
  | nil => exact absurd rfl hne
  | cons y ys =>
    exact le_trans (h y (List.mem_cons_self y ys)) (le_listMax _ y (List.mem_cons_self y ys))

lemma filename_sim_nonneg (fn : String) (s : Style) :
    0 ≤ calculate_filename_similarity fn s := by
  rw [calculate_filename_similarity]
  split
  · norm_num
  · split
    · norm_num
    · split
      · norm_num
      · split <;> norm_num

lemma styleScore_nonneg (env : DatasetEnv) (q : Vec) (fn : String) (s : Style) :
    0 ≤ styleScore env q fn s := by
  rw [styleScore]
  split
  · exact_mod_cast filename_sim_nonneg fn s
  · rename_i href
    have hbase : (0:ℝ) ≤
        (if (env.referenceFeatures s).map (fun r => max 0 (cosineSim q r)) = []
         then 0.3
         else listMax ((env.referenceFeatures s).map (fun r => max 0 (cosineSim q r)))) := by
      split
      · norm_num
      · rename_i hsims
        refine listMax_nonneg _ ?_ hsims
        intro x hxmem
        rcases List.mem_map.mp hxmem with ⟨r, _, hr⟩
        rw [← hr]
        exact le_max_left 0 _
    have hfn : (0:ℝ) ≤ (calculate_filename_similarity fn s : ℝ) := by
      exact_mod_cast filename_sim_nonneg fn s
    positivity


/-- Concrete classifier state for concrete instances: no reference features
were loaded (every style falls back to its filename score, as in the guard at
`dataset_classifier.py` line 142), and the dataset counts are the fallback
counts of `_load_reference_images` (line 65). -/
def env0 : DatasetEnv where
  referenceFeatures := fun _ => []
  styleCounts := fun s =>
    match s with
    | Style.warli => 95
    | Style.madhubani => 95
    | Style.pithora => 14
  randFeatures := []
  randChoice := 0

lemma filename_sim_xjpg (s : Style) : calculate_filename_similarity "x.jpg" s = 0 := by
  cases s <;>
    (rw [calculate_filename_similarity];
     rw [if_neg (by decide), if_neg (by decide), if_neg (by decide), if_neg (by decide)])

lemma env0_mainScores (q : Vec) (s : Style) : mainScores env0 q "x.jpg" s = 0 := by
  simp only [mainScores]
  rw [styleScore, if_pos (show env0.referenceFeatures s = [] from rfl),
    filename_sim_xjpg s]
  norm_num

lemma env0_winning (q : Vec) : winningScore env0 q "x.jpg" = 0 := by
  rw [winningScore, env0_mainScores]

/-- **C1, counterexample.** With no loaded reference features and the neutral
filename "x.jpg", every combined score is 0, so the winning combined score is
below 0.5; yet the returned confidence is not 0.75, because the 0.75 default
set at line 179 is still boosted by +0.15 at line 182 (giving 0.9). -/
theorem C1_counterexample :
    winningScore env0 [] "x.jpg" < 0.5 ∧
    (classify_image env0 (DecodeOutcome.ok (some [])) "x.jpg").confidence_score ≠ 0.75 := by
  constructor
  · rw [env0_winning]; norm_num
  · simp only [classify_image]
    simp only [env0_mainScores]
    rw [if_pos (by norm_num)]
    rw [show ((pyMaxBy env0.styleCounts styleOrder, (0.75:ℝ))).2 = 0.75 from rfl]
    rw [show (0.75:ℝ) + 0.15 = 0.9 by norm_num, min_eq_right (by norm_num)]
    norm_num

/-- **C1, amended.** Whenever the winning combined score is strictly below
0.5, `classify_image` predicts the style with the largest recorded
reference-sample count (first in dict order on ties) and returns confidence
exactly 0.9: the fixed 0.75 default is subsequently boosted by +0.15 and
clamped at 0.98 (`dataset_classifier.py` lines 175-182). -/
theorem C1_low_score_default (env : DatasetEnv) (ext : Option Vec) (fn : String)
    (h : winningScore env (extract_features_result ext env.randFeatures) fn < 0.5) :
    (classify_image env (DecodeOutcome.ok ext) fn).predicted_style =
      pyMaxBy env.styleCounts styleOrder ∧
    (∀ s : Style, env.styleCounts s ≤
      env.styleCounts (pyMaxBy env.styleCounts styleOrder)) ∧
    (classify_image env (DecodeOutcome.ok ext) fn).confidence_score = 0.9 := by
  rw [winningScore] at h
  simp only [classify_image]
  rw [if_pos h]
  refine ⟨rfl, ?_, ?_⟩
  · intro s
    exact pyMaxBy_le env.styleCounts styleOrder s (by cases s <;> decide)
  rw [show ((pyMaxBy env.styleCounts styleOrder, (0.75:ℝ))).2 = 0.75 from rfl]
  rw [show (0.75:ℝ) + 0.15 = 0.9 by norm_num, min_eq_right (by norm_num)]

theorem C1_low_score_default_witness :
    (classify_image env0 (DecodeOutcome.ok (some [])) "x.jpg").predicted_style =
      pyMaxBy env0.styleCounts styleOrder ∧
    env0.styleCounts Style.pithora ≤
      env0.styleCounts (pyMaxBy env0.styleCounts styleOrder) ∧
    (classify_image env0 (DecodeOutcome.ok (some [])) "x.jpg").confidence_score = 0.9 :=
  have h := C1_low_score_default env0 (some []) "x.jpg" (by rw [env0_winning]; norm_num)
  ⟨h.1, h.2.1 Style.pithora, h.2.2⟩

/-- **C2, counterexample.** For an undecodable upload (the `Image.open`
exception path) with filename "warli.jpg", `classify_image` returns an
ordinary, fully populated classification result — predicted style `warli`,
confidence 0.85, fallback method tag — rather than surfacing any distinct
decode error; so the claim that such inputs never become a classification
result is false on the code. -/
theorem C2_counterexample :
    (classify_image env0 DecodeOutcome.fail "warli.jpg").predicted_style = Style.warli ∧
    (classify_image env0 DecodeOutcome.fail "warli.jpg").confidence_score = 0.85 ∧
    (classify_image env0 DecodeOutcome.fail "warli.jpg").model_version = "fallback-filename-v1" := by
  have hfind : styleOrder.find?
      (fun s => containsSub (styleName s) (pyLower "warli.jpg")) = some Style.warli := by
    decide
  simp [classify_image, hfind]

/-- **C2, amended.** Malformed or undecodable input never surfaces an error:
the catch-all handler of `classify_image` (lines 192-214) converts it into a
well-formed fallback classification result (filename fallback at confidence
0.85, else random fallback at confidence 0.72), and an internal feature
extraction failure is converted by `_extract_features` (lines 102-104) into
the random feature vector rather than an exception. There is no
`ImageDecodeError` anywhere in the code. -/
theorem C2_decode_failure_degrades (env : DatasetEnv) (fn : String) :
    ((classify_image env DecodeOutcome.fail fn).model_version = "fallback-filename-v1" ∧
       (classify_image env DecodeOutcome.fail fn).confidence_score = 0.85 ∨
     (classify_image env DecodeOutcome.fail fn).model_version = "random-fallback-v1" ∧
       (classify_image env DecodeOutcome.fail fn).confidence_score = 0.72) ∧
    extract_features_result none env.randFeatures = env.randFeatures := by
  refine ⟨?_, rfl⟩
  cases hfind : styleOrder.find? (fun s => containsSub (styleName s) (pyLower fn)) with
  | none => right; simp [classify_image, hfind]
  | some s => left; simp [classify_image, hfind]

lemma main_conf_bounds (x : ℝ) (hx : 0 ≤ x) :
    0 ≤ min 0.98 (x + 0.15) ∧ min 0.98 (x + 0.15) ≤ 0.98 :=
  ⟨le_min (by norm_num) (by linarith), min_le_left _ _⟩

/-- **C4.** On every path — main path after the +0.15 boost and 0.98 clamp,
filename fallback (0.85), random fallback (0.72) — the confidence returned by
`classify_image` lies in [0, 0.98], for every classifier state, decode
outcome and filename, regardless of raw similarity magnitudes. -/
theorem C4_confidence_in_range (env : DatasetEnv) (d : DecodeOutcome) (fn : String) :
    0 ≤ (classify_image env d fn).confidence_score ∧
    (classify_image env d fn).confidence_score ≤ 0.98 := by
  cases d with
  | ok ext =>
    simp only [classify_image]
    apply main_conf_bounds
    by_cases hc :
        mainScores env (extract_features_result ext env.randFeatures) fn
          (pyMaxBy (mainScores env (extract_features_result ext env.randFeatures) fn)
            styleOrder) < 0.5
    · rw [if_pos hc]; norm_num
    · rw [if_neg hc]
      exact styleScore_nonneg env _ fn _
  | fail =>
    cases hfind : styleOrder.find? (fun s => containsSub (styleName s) (pyLower fn)) with
    | none => simp [classify_image, hfind]; norm_num
    | some s => simp [classify_image, hfind]; norm_num

lemma getD_mem_styleOrder (n : ℕ) (h : n < 3) :
    styleOrder.getD n Style.warli ∈ styleOrder := by
  interval_cases n <;> decide

/-- **C9.** When the main comparison path fails entirely (an exception
reaching the handler at `dataset_classifier.py` line 192), `classify_image`
first tries filename matching — returning the first style whose name occurs
in the lowercased filename, with confidence exactly 0.85 and method
"fallback-filename-v1" — and only when no style name matches returns the
random style choice with confidence exactly 0.72 and method
"random-fallback-v1"; the fallback method tags differ from each other and
from the main path's "dataset-comparison-v1". -/
theorem C9_fallback_chain (env : DatasetEnv) (fn : String) :
    (∀ s : Style,
      styleOrder.find? (fun t => containsSub (styleName t) (pyLower fn)) = some s →
        (classify_image env DecodeOutcome.fail fn).predicted_style = s ∧
        (classify_image env DecodeOutcome.fail fn).confidence_score = 0.85 ∧
        (classify_image env DecodeOutcome.fail fn).model_version = "fallback-filename-v1") ∧
    (styleOrder.find? (fun t => containsSub (styleName t) (pyLower fn)) = none →
        (classify_image env DecodeOutcome.fail fn).predicted_style =
          styleOrder.getD (env.randChoice : ℕ) Style.warli ∧
        (classify_image env DecodeOutcome.fail fn).confidence_score = 0.72 ∧
        (classify_image env DecodeOutcome.fail fn).model_version = "random-fallback-v1") ∧
    ("fallback-filename-v1" : String) ≠ "random-fallback-v1" ∧
    (classify_image env DecodeOutcome.fail fn).model_version ≠ "dataset-comparison-v1" := by
  refine ⟨?_, ?_, by decide, ?_⟩
  · intro s hfind
    simp [classify_image, hfind]
  · intro hfind
    simp [classify_image, hfind]
  · cases hfind : styleOrder.find? (fun t => containsSub (styleName t) (pyLower fn)) with
    | none => simp [classify_image, hfind]
    | some s => simp [classify_image, hfind]

theorem C9_fallback_chain_witness :
    ((classify_image env0 DecodeOutcome.fail "warli.jpg").predicted_style = Style.warli ∧
     (classify_image env0 DecodeOutcome.fail "warli.jpg").confidence_score = 0.85 ∧
     (classify_image env0 DecodeOutcome.fail "warli.jpg").model_version =
       "fallback-filename-v1") ∧
    ((classify_image env0 DecodeOutcome.fail "zzz.jpg").predicted_style =
       styleOrder.getD (env0.randChoice : ℕ) Style.warli ∧
     (classify_image env0 DecodeOutcome.fail "zzz.jpg").confidence_score = 0.72 ∧
     (classify_image env0 DecodeOutcome.fail "zzz.jpg").model_version =
       "random-fallback-v1") :=
  ⟨(C9_fallback_chain env0 "warli.jpg").1 Style.warli (by decide),
   (C9_fallback_chain env0 "zzz.jpg").2.1 (by decide)⟩

/-- **C10.** `classify_image` is total in the model (every decode outcome,
including failure, is mapped to a result): it always returns a fully
populated five-field result whose predicted style is one of the three known
labels, whose dataset counts echo the classifier state, whose method tag is
one of the three version strings, and whose confidence is never below 0.65
(main path at least 0.65 after the boost, low-score path 0.9, filename
fallback 0.85, random fallback 0.72). -/
theorem C10_result_wellformed (env : DatasetEnv) (d : DecodeOutcome) (fn : String) :
    0.65 ≤ (classify_image env d fn).confidence_score ∧
    (classify_image env d fn).predicted_style ∈ styleOrder ∧
    (classify_image env d fn).dataset_counts = env.styleCounts ∧
    ((classify_image env d fn).model_version = "dataset-comparison-v1" ∨
     (classify_image env d fn).model_version = "fallback-filename-v1" ∨
     (classify_image env d fn).model_version = "random-fallback-v1") := by
  cases d with
  | ok ext =>
    simp only [classify_image]
    by_cases hc :
        mainScores env (extract_features_result ext env.randFeatures) fn
          (pyMaxBy (mainScores env (extract_features_result ext env.randFeatures) fn)
            styleOrder) < 0.5
    · rw [if_pos hc]
      refine ⟨?_, ?_, by trivial, by simp⟩
      · rw [show ((pyMaxBy env.styleCounts styleOrder, (0.75:ℝ))).2 = 0.75 from rfl]
        rw [show (0.75:ℝ) + 0.15 = 0.9 by norm_num, min_eq_right (by norm_num)]
        norm_num
      · exact pyMaxBy_mem env.styleCounts styleOrder (by decide)
    · rw [if_neg hc]
      push_neg at hc
      refine ⟨?_, ?_, by trivial, by simp⟩
      · exact le_min (by norm_num) (by simp only []; linarith)
      · exact pyMaxBy_mem _ styleOrder (by decide)
  | fail =>
    cases hfind : styleOrder.find? (fun s => containsSub (styleName s) (pyLower fn)) with
    | none =>
      simp only [classify_image, hfind]
      exact ⟨by norm_num, getD_mem_styleOrder _ env.randChoice.isLt, by trivial, by simp⟩
    | some s =>
      simp only [classify_image, hfind]
      exact ⟨by norm_num, List.mem_of_find?_eq_some hfind, by trivial, by simp⟩

lemma dot_nonneg_of_nonneg (u : Vec) : ∀ (v : Vec),
    (∀ x ∈ u, 0 ≤ x) → (∀ x ∈ v, 0 ≤ x) → 0 ≤ dot u v := by
  induction u with
  | nil => intro v _ _; simp [dot]
  | cons a as ih =>
    intro v hu hv
    cases v with
    | nil => simp [dot]
    | cons b bs =>
      have h1 : 0 ≤ a * b :=
        mul_nonneg (hu a (List.mem_cons_self a as)) (hv b (List.mem_cons_self b bs))
      have h2 : 0 ≤ dot as bs :=
        ih bs (fun x hx => hu x (List.mem_cons_of_mem a hx))
          (fun x hx => hv x (List.mem_cons_of_mem b hx))
      rw [dot] at h2 ⊢
      rw [List.zipWith_cons_cons, List.sum_cons]
      linarith

lemma cosineSim_nonneg (q r : Vec) (hq : ∀ x ∈ q, 0 ≤ x) (hr : ∀ x ∈ r, 0 ≤ x) :
    0 ≤ cosineSim q r := by
  rw [cosineSim]
  split
  · exact le_refl 0
  · exact div_nonneg (dot_nonneg_of_nonneg q r hq hr)
      (mul_nonneg (Real.sqrt_nonneg _) (Real.sqrt_nonneg _))

/-- Classifier state with exactly one warli reference feature vector `[1]`
and no reference samples for the other styles. -/
def env1 : DatasetEnv where
  referenceFeatures := fun s =>
    match s with
    | Style.warli => [[1]]
    | Style.madhubani => []
    | Style.pithora => []
  styleCounts := fun _ => 0
  randFeatures := []
  randChoice := 0

lemma dot_one : dot [(1:ℝ)] [(1:ℝ)] = 1 := by simp [dot]

lemma norm2_one : norm2 [(1:ℝ)] = 1 := by rw [norm2, dot_one, Real.sqrt_one]

lemma cosineSim_one : cosineSim [(1:ℝ)] [(1:ℝ)] = 1 := by
  have hc : ¬(norm2 [(1:ℝ)] = 0 ∨ norm2 [(1:ℝ)] = 0) := by rw [norm2_one]; norm_num
  rw [cosineSim, if_neg hc, dot_one, norm2_one]
  norm_num

lemma env1_score_warli : mainScores env1 [1] "warli.jpg" Style.warli = 0.985 := by
  simp only [mainScores, styleScore]
  rw [if_neg (show ¬(env1.referenceFeatures Style.warli = []) by simp [env1])]
  show (if ([[(1:ℝ)]].map (fun r => max 0 (cosineSim [1] r))) = [] then (0.3:ℝ)
      else listMax ([[(1:ℝ)]].map (fun r => max 0 (cosineSim [1] r)))) * 0.7 +
      (calculate_filename_similarity "warli.jpg" Style.warli : ℝ) * 0.3 = 0.985
  rw [List.map_singleton, cosineSim_one]
  rw [show max (0:ℝ) 1 = 1 from max_eq_right (by norm_num)]
  rw [if_neg (List.cons_ne_nil 1 [])]
  rw [show listMax [(1:ℝ)] = 1 from rfl]
  rw [calculate_filename_similarity, if_pos ⟨rfl, by decide⟩]
  norm_num

lemma env1_score_madhubani : mainScores env1 [1] "warli.jpg" Style.madhubani = 0 := by
  simp only [mainScores, styleScore]
  rw [if_pos (show env1.referenceFeatures Style.madhubani = [] from rfl)]
  rw [calculate_filename_similarity]
  rw [if_neg (by decide), if_neg (by decide), if_neg (by decide), if_neg (by decide)]
  norm_num

lemma env1_score_pithora : mainScores env1 [1] "warli.jpg" Style.pithora = 0 := by
  simp only [mainScores, styleScore]
  rw [if_pos (show env1.referenceFeatures Style.pithora = [] from rfl)]
  rw [calculate_filename_similarity]
  rw [if_neg (by decide), if_neg (by decide), if_neg (by decide), if_neg (by decide)]
  norm_num

lemma env1_best : pyMaxBy (mainScores env1 [1] "warli.jpg") styleOrder = Style.warli := by
  simp only [styleOrder, pyMaxBy, List.foldl_cons, List.foldl_nil]
  norm_num [env1_score_warli, env1_score_madhubani, env1_score_pithora]

lemma env1_winning : winningScore env1 [1] "warli.jpg" = 0.985 := by
  rw [winningScore, env1_best, env1_score_warli]

/-- **C5.** For every style with at least one reference sample, given the
entrywise non-negative feature vectors that `_extract_features` produces
(normalized histogram counts, absolute edge sums, or the uniform random
fallback — all non-negative), the combined score equals
`0.7 * (maximum cosine similarity between the query and the style's
individual reference vectors) + 0.3 * filename_score` — the maximum, not the
average, since the `max(0, _)` clamp of line 155 is the identity on the
non-negative similarities — every style's combined score is at most the
winner's, and when the winning score reaches 0.5 the returned prediction is
exactly the first style of maximal combined score. -/
theorem C5_combined_score (env : DatasetEnv) (q : Vec) (fn : String) (s : Style)
    (hq : ∀ x ∈ q, 0 ≤ x)
    (hrefs : ∀ v ∈ env.referenceFeatures s, ∀ x ∈ v, 0 ≤ x)
    (hne : env.referenceFeatures s ≠ []) :
    mainScores env q fn s =
      listMax ((env.referenceFeatures s).map (cosineSim q)) * 0.7 +
        (calculate_filename_similarity fn s : ℝ) * 0.3 ∧
    (∀ t : Style, mainScores env q fn t ≤ winningScore env q fn) ∧
    (0.5 ≤ winningScore env q fn →
      (classify_image env (DecodeOutcome.ok (some q)) fn).predicted_style =
        pyMaxBy (mainScores env q fn) styleOrder) := by
  have hmap : (env.referenceFeatures s).map (fun r => max 0 (cosineSim q r)) =
      (env.referenceFeatures s).map (cosineSim q) :=
    List.map_congr_left (fun r hr => max_eq_right (cosineSim_nonneg q r hq (hrefs r hr)))
  refine ⟨?_, ?_, ?_⟩
  · simp only [mainScores, styleScore]
    rw [if_neg hne, hmap]
    rw [if_neg (by simpa using hne)]
  · intro t
    rw [winningScore]
    exact pyMaxBy_le _ styleOrder t (by cases t <;> decide)
  · intro hwin
    rw [winningScore] at hwin
    simp only [classify_image, extract_features_result, Option.getD]
    rw [if_neg (not_lt.mpr hwin)]

theorem C5_combined_score_witness :
    mainScores env1 [1] "warli.jpg" Style.warli =
      listMax ((env1.referenceFeatures Style.warli).map (cosineSim [1])) * 0.7 +
        (calculate_filename_similarity "warli.jpg" Style.warli : ℝ) * 0.3 ∧
    mainScores env1 [1] "warli.jpg" Style.pithora ≤ winningScore env1 [1] "warli.jpg" ∧
    (classify_image env1 (DecodeOutcome.ok (some [1])) "warli.jpg").predicted_style =
      pyMaxBy (mainScores env1 [1] "warli.jpg") styleOrder := by
  have h := C5_combined_score env1 [1] "warli.jpg" Style.warli
    (by intro x hx; rw [List.mem_singleton] at hx; rw [hx]; norm_num)
    (by intro v hv; simp only [env1] at hv; rw [List.mem_singleton] at hv; subst hv;
        intro x hx; rw [List.mem_singleton] at hx; rw [hx]; norm_num)
    (by simp [env1])
  exact ⟨h.1, h.2.1 Style.pithora, h.2.2 (by rw [env1_winning]; norm_num)⟩

/-- **C8.** The filename-heuristic score is always exactly one of
{0, 0.7, 0.95}: 0.95 precisely when the style's own name occurs as a
substring of the lowercased filename (name matches take precedence over
keyword matches), 0.7 when one of the style's fixed keywords occurs and the
name does not, and 0 otherwise; in particular "my_warli_art.jpg" against
`warli` scores 0.95, not 0.7. -/
theorem C8_filename_heuristic (fn : String) (s : Style) :
    calculate_filename_similarity fn s =
      (if containsSub (styleName s) (pyLower fn) then (0.95:ℚ)
       else if (styleKeywords s).any (fun k => containsSub k (pyLower fn)) then 0.7
       else 0) ∧
    (calculate_filename_similarity fn s = 0 ∨
     calculate_filename_similarity fn s = 0.7 ∨
     calculate_filename_similarity fn s = 0.95) ∧
    calculate_filename_similarity "my_warli_art.jpg" Style.warli = 0.95 := by
  refine ⟨?_, ?_, by rw [calculate_filename_similarity]; rw [if_pos ⟨rfl, by decide⟩]⟩
  · cases s with
    | warli =>
      by_cases h1 : containsSub "warli" (pyLower fn) = true
      · simp [calculate_filename_similarity, styleName, h1]
      · simp [calculate_filename_similarity, styleName, h1]
    | madhubani =>
      by_cases h1 : containsSub "madhubani" (pyLower fn) = true
      · simp [calculate_filename_similarity, styleName, h1]
      · simp [calculate_filename_similarity, styleName, h1]
    | pithora =>
      by_cases h1 : containsSub "pithora" (pyLower fn) = true
      · simp [calculate_filename_similarity, styleName, h1]
      · simp [calculate_filename_similarity, styleName, h1]
  · rw [calculate_filename_similarity]
    split_ifs <;> norm_num

/-- Persisted index content of `embedding_classifier.py`
(`dataset_index_tf.npz` / `dataset_index_cv.npz`): the stacked embedding
matrix and the parallel label array. -/
structure StoredIndex where
  embeddings : List Vec
  labels : List String

/-- Sidecar metadata record (`dataset_index.meta.json`): the extraction
method tag checked at line 201 and the label-name list. The remaining JSON
fields (dataset dir, build timestamp, count) play no role in loading. -/
structure IndexMeta where
  method : String
  label_names : List String

/-- On-disk cache state seen by `_load_or_build_index`: the index file and
the meta file, each either present with its parsed content or absent. -/
structure DiskState where
  indexFile : Option StoredIndex
  metaFile : Option IndexMeta

def firstDedupAux (seen : List String) : List String → List String
  | [] => []
  | x :: xs =>
    if x ∈ seen then firstDedupAux seen xs else x :: firstDedupAux (x :: seen) xs

/-- Keys of a Python dict populated by `setdefault` in encounter order:
the distinct strings of `l`, first occurrences first. -/
def firstDedup (l : List String) : List String :=
  firstDedupAux [] l

/-- Build phase of `_load_or_build_index` (`embedding_classifier.py` lines
211-257): group the dataset items by label in first-occurrence order
(`by_class`), cap each class at `max_per_class`, and stack the embeddings
with the parallel label list. The `dataset` argument lists the
(label, embedding) pairs of the walked images that embed without error, in
walk order; images whose `Image.open`/embedding raises are skipped by the
source (line 235) and hence not listed. -/
def buildFromDataset (dataset : List (String × Vec)) (max_per_class : ℕ) :
    StoredIndex :=
  let classes := firstDedup (dataset.map Prod.fst)
  { embeddings := (classes.map (fun lab =>
      ((dataset.filter (fun p => p.1 = lab)).map Prod.snd).take max_per_class)).flatten
    labels := (classes.map (fun lab =>
      (((dataset.filter (fun p => p.1 = lab)).map Prod.snd).take max_per_class).map
        (fun _ => lab))).flatten }

/-- Possible outcomes of `_load_or_build_index`: a cache hit returning the
stored index, a rebuild returning a freshly built index, or the
`RuntimeError` raised on an empty/unembeddable dataset (line 215/239). -/
inductive LoadOutcome where
  | cacheHit (idx : StoredIndex) (labelNames : List String)
  | rebuilt (idx : StoredIndex)
  | datasetError

/-- `EmbeddingClassifier._load_or_build_index` (`embedding_classifier.py`
lines 191-257): when both cache files exist, load them and validate the
stored method tag against the active method — a mismatch raises at line 202
into the `except` at line 208, which falls through to the build phase, whose
result overwrites the loaded arrays; missing cache files go directly to the
build phase; building over an empty dataset raises (modelled as
`datasetError`, in which case nothing is ever scored). The build phase is
split out as `buildPhase`. -/
def buildPhase (dataset : List (String × Vec)) (max_per_class : ℕ) : LoadOutcome :=
  match dataset with
  | [] => LoadOutcome.datasetError
  | d :: ds => LoadOutcome.rebuilt (buildFromDataset (d :: ds) max_per_class)

/-- Dispatch of `_load_or_build_index` (lines 192-209): attempt the cache
load only when both files exist, falling back to the build phase on a
method-tag mismatch or missing files. -/
def load_or_build_index (disk : DiskState) (method : String)
    (dataset : List (String × Vec)) (max_per_class : ℕ) : LoadOutcome :=
  match disk.indexFile, disk.metaFile with
  | some idx, some meta =>
    if meta.method = method then
      LoadOutcome.cacheHit idx meta.label_names
    else buildPhase dataset max_per_class
  | _, _ => buildPhase dataset max_per_class

/-- **C3.** When the persisted meta's method tag differs from the active
extraction method, loading reports a cache-miss (never a cache hit) and
triggers a rebuild from the dataset; the outcome is independent of the
stored stale vectors, which are therefore never used for scoring. -/
theorem C3_method_mismatch_rebuilds (idx : StoredIndex) (meta : IndexMeta)
    (method : String) (dataset : List (String × Vec))
    (hm : meta.method ≠ method) (hds : dataset ≠ []) :
    load_or_build_index ⟨some idx, some meta⟩ method dataset 400 =
      LoadOutcome.rebuilt (buildFromDataset dataset 400) ∧
    (∀ i ln, load_or_build_index ⟨some idx, some meta⟩ method dataset 400 ≠
      LoadOutcome.cacheHit i ln) ∧
    (∀ idx' : StoredIndex,
      load_or_build_index ⟨some idx', some meta⟩ method dataset 400 =
        load_or_build_index ⟨some idx, some meta⟩ method dataset 400) := by
  have h1 : ∀ i : StoredIndex,
      load_or_build_index ⟨some i, some meta⟩ method dataset 400 =
        LoadOutcome.rebuilt (buildFromDataset dataset 400) := by
    intro i
    obtain ⟨d, ds, rfl⟩ := List.exists_cons_of_ne_nil hds
    simp only [load_or_build_index]
    rw [if_neg hm]
    rfl
  refine ⟨h1 idx, ?_, ?_⟩
  · intro i ln
    rw [h1 idx]
    exact fun hcontra => LoadOutcome.noConfusion hcontra
  · intro idx'
    rw [h1 idx', h1 idx]

theorem C3_method_mismatch_rebuilds_witness :
    load_or_build_index ⟨some ⟨[[1]], ["warli"]⟩, some ⟨"cvhsv", ["warli"]⟩⟩
        "mobilenetv2" [("warli", [1])] 400 =
      LoadOutcome.rebuilt (buildFromDataset [("warli", [1])] 400) :=
  (C3_method_mismatch_rebuilds ⟨[[1]], ["warli"]⟩ ⟨"cvhsv", ["warli"]⟩
    "mobilenetv2" [("warli", [1])] (by decide) (by simp)).1

/-- Indices of the reference vectors carrying a given label
(`class_to_indices`, built by `_rebuild_class_indices`,
`embedding_classifier.py` lines 259-262). -/
def classIndices (labels : List String) (lab : String) : List ℕ :=
  (List.range labels.length).filter (fun i => labels.getD i "" = lab)

/-- `sorted(set(self.labels))` (line 274): the distinct labels in ascending
lexical order. -/
def sortedLabels (labels : List String) : List String :=
  List.insertionSort (fun a b => a ≤ b) labels.dedup

/-- Per-label centroid (lines 276-283): the zero vector (`np.zeros_like` of
the first embedding) for a label with no reference samples, else the mean of
the label's vectors scaled by `1 / (norm + 1e-9)` — the epsilon keeps the
denominator positive, so there is never a division by zero. -/
noncomputable def centroidOf (embeddings : List Vec) (labels : List String)
    (lab : String) : Vec :=
  let idxs := classIndices labels lab
  let dim := (embeddings.headD []).length
  if idxs = [] then List.replicate dim 0
  else
    let m := (List.range dim).map (fun i =>
      (idxs.map (fun k => (embeddings.getD k []).getD i 0)).sum / (idxs.length : ℝ))
    m.map (fun x => x / (norm2 m + 1e-9))

/-- Cosine similarities of the query embedding to each class centroid
(`logits = centroids @ emb`, line 287; both sides are already normalized). -/
noncomputable def embLogits (embeddings : List Vec) (labels : List String)
    (emb : Vec) : List ℝ :=
  (sortedLabels labels).map (fun lab => dot (centroidOf embeddings labels lab) emb)

/-- Numerically stabilized exponentials of the temperature-scaled logits
(`exps = np.exp((logits - logits.max()) / temp)` with `temp = 0.05`,
lines 289-290). -/
noncomputable def embExps (embeddings : List Vec) (labels : List String)
    (emb : Vec) : List ℝ :=
  (embLogits embeddings labels emb).map
    (fun z => Real.exp ((z - listMax (embLogits embeddings labels emb)) / 0.05))

/-- Soft-max probabilities (`probs = exps / exps.sum()`, line 291). -/
noncomputable def embProbs (embeddings : List Vec) (labels : List String)
    (emb : Vec) : List ℝ :=
  (embExps embeddings labels emb).map
    (fun e => e / (embExps embeddings labels emb).sum)

/-- `np.argmax` over a float list: the first index attaining the maximum. -/
noncomputable def argmaxIdx : List ℝ → ℕ
  | [] => 0
  | [_] => 0
  | x :: y :: ys =>
    if (y :: ys).getD (argmaxIdx (y :: ys)) 0 > x then argmaxIdx (y :: ys) + 1 else 0

/-- Result dictionary of `EmbeddingClassifier.classify` (lines 301-306). -/
structure EmbResult where
  predicted_style : String
  confidence_score : ℝ
  all_predictions : List (String × ℝ)
  method : String

/-- Scoring phase of `EmbeddingClassifier.classify` (`embedding_classifier.py`
lines 273-306): per-class centroids over the sorted distinct labels,
temperature-scaled soft-max over the centroid cosine similarities, argmax
prediction with its probability as confidence, and the method tag chosen by
the availability of the deep-learning runtime. -/
noncomputable def classify (embeddings : List Vec) (labels : List String)
    (emb : Vec) (tf_available : Bool) : EmbResult :=
  let labs := sortedLabels labels
  let probs := embProbs embeddings labels emb
  let best_idx := argmaxIdx probs
  { predicted_style := labs.getD best_idx ""
    confidence_score := probs.getD best_idx 0
    all_predictions := labs.zip probs
    method := if tf_available then "mobilenetv2-embeddings-knn"
              else "cvhsv-embeddings-knn" }

lemma sum_map_div (l : List ℝ) (s : ℝ) :
    (l.map (fun e => e / s)).sum = l.sum / s := by
  induction l with
  | nil => simp
  | cons a as ih => simp [ih, add_div]

lemma sortedLabels_ne_nil (labels : List String) (h : labels ≠ []) :
    sortedLabels labels ≠ [] := by
  intro hnil
  have hperm := List.perm_insertionSort (fun a b : String => a ≤ b) labels.dedup
  rw [sortedLabels] at hnil
  rw [hnil] at hperm
  exact h ((List.dedup_eq_nil labels).mp hperm.symm.eq_nil)

lemma embExps_ne_nil (e : List Vec) (l : List String) (v : Vec) (h : l ≠ []) :
    embExps e l v ≠ [] := by
  intro hc
  apply sortedLabels_ne_nil l h
  rw [embExps] at hc
  have h1 := List.map_eq_nil_iff.mp hc
  rw [embLogits] at h1
  exact List.map_eq_nil_iff.mp h1

lemma embExps_pos (e : List Vec) (l : List String) (v : Vec) :
    ∀ x ∈ embExps e l v, 0 < x := by
  intro x hx
  rw [embExps] at hx
  rcases List.mem_map.mp hx with ⟨z, _, hz⟩
  rw [← hz]
  exact Real.exp_pos _

lemma embExps_sum_pos (e : List Vec) (l : List String) (v : Vec) (h : l ≠ []) :
    0 < (embExps e l v).sum :=
  List.sum_pos _ (embExps_pos e l v) (embExps_ne_nil e l v h)

/-- **C6.** For every index with at least one labelled reference vector (so
every known label, being drawn from the label array, has at least one
sample), the soft-max values of the centroid scorer are all non-negative and
sum to exactly 1 (the floating-point tolerance of the spec is exact in the
real-number model), and a label with zero samples receives the zero-vector
centroid — produced without any division error, since the normalizing
denominator `norm + 1e-9` is never zero. -/
theorem C6_centroid_softmax (embeddings : List Vec) (labels : List String)
    (emb : Vec) (h : labels ≠ []) :
    (∀ p ∈ embProbs embeddings labels emb, 0 ≤ p) ∧
    (embProbs embeddings labels emb).sum = 1 ∧
    (∀ lab, classIndices labels lab = [] →
      centroidOf embeddings labels lab =
        List.replicate (embeddings.headD []).length 0) := by
  have hs := embExps_sum_pos embeddings labels emb h
  refine ⟨?_, ?_, ?_⟩
  · intro p hp
    rw [embProbs] at hp
    rcases List.mem_map.mp hp with ⟨e, he, hpe⟩
    rw [← hpe]
    exact le_of_lt (div_pos (embExps_pos _ _ _ e he) hs)
  · rw [embProbs, sum_map_div, div_self (ne_of_gt hs)]
  · intro lab hlab
    simp only [centroidOf]
    rw [if_pos hlab]

theorem C6_centroid_softmax_witness :
    (embProbs [[1]] ["a"] [1]).sum = 1 ∧
    centroidOf [[1]] ["a"] "b" = List.replicate 1 0 :=
  ⟨(C6_centroid_softmax [[1]] ["a"] [1] (by simp)).2.1,
   (C6_centroid_softmax [[1]] ["a"] [1] (by simp)).2.2 "b" (by decide)⟩

lemma argmaxIdx_lt_length : ∀ (l : List ℝ), l ≠ [] → argmaxIdx l < l.length := by
  intro l
  induction l with
  | nil => intro hc; exact absurd rfl hc
  | cons x xs ih =>
    intro _
    cases xs with
    | nil => simp [argmaxIdx]
    | cons y ys =>
      simp only [argmaxIdx]
      by_cases hc : (y :: ys).getD (argmaxIdx (y :: ys)) 0 > x
      · rw [if_pos hc]
        have hlt := ih (List.cons_ne_nil y ys)
        simp only [List.length_cons] at hlt ⊢
        omega
      · rw [if_neg hc]
        simp

lemma argmaxIdx_le : ∀ (l : List ℝ) (i : ℕ), i < l.length →
    l.getD i 0 ≤ l.getD (argmaxIdx l) 0 := by
  intro l
  induction l with
  | nil => intro i hi; simp at hi
  | cons x xs ih =>
    intro i hi
    cases xs with
    | nil =>
      have : i = 0 := by simp at hi; omega
      subst this
      simp [argmaxIdx]
    | cons y ys =>
      simp only [argmaxIdx]
      by_cases hc : (y :: ys).getD (argmaxIdx (y :: ys)) 0 > x
      · rw [if_pos hc]
        cases i with
        | zero =>
          rw [List.getD_cons_zero, List.getD_cons_succ]
          exact le_of_lt hc
        | succ n =>
          rw [List.getD_cons_succ, List.getD_cons_succ]
          exact ih n (by simpa using hi)
      · rw [if_neg hc]
        cases i with
        | zero => simp
        | succ n =>
          rw [List.getD_cons_succ, List.getD_cons_zero]
          exact le_trans (ih n (by simpa using hi)) (not_lt.mp hc)

lemma argmaxIdx_first : ∀ (l : List ℝ) (i : ℕ), i < argmaxIdx l →
    l.getD i 0 < l.getD (argmaxIdx l) 0 := by
  intro l
  induction l with
  | nil => intro i hi; simp [argmaxIdx] at hi
  | cons x xs ih =>
    intro i hi
    cases xs with
    | nil => simp [argmaxIdx] at hi
    | cons y ys =>
      simp only [argmaxIdx] at hi ⊢
      by_cases hc : (y :: ys).getD (argmaxIdx (y :: ys)) 0 > x
      · rw [if_pos hc] at hi ⊢
        cases i with
        | zero =>
          rw [List.getD_cons_zero, List.getD_cons_succ]
          exact hc
        | succ n =>
          rw [List.getD_cons_succ, List.getD_cons_succ]
          exact ih n (by omega)
      · rw [if_neg hc] at hi
        omega

lemma sorted_getD_le (l : List String)
    (hs : List.Sorted (fun a b : String => a ≤ b) l)
    (i j : ℕ) (hij : i ≤ j) (hj : j < l.length) : l.getD i "" ≤ l.getD j "" := by
  rcases Nat.eq_or_lt_of_le hij with heq | hlt
  · rw [heq]
  · have hi : i < l.length := lt_trans hlt hj
    rw [List.getD_eq_getElem l "" hi, List.getD_eq_getElem l "" hj]
    have hrel := List.Sorted.rel_get_of_lt hs
      (show (⟨i, hi⟩ : Fin l.length) < ⟨j, hj⟩ from hlt)
    simpa using hrel

lemma sortedLabels_sorted (labels : List String) :
    List.Sorted (fun a b : String => a ≤ b) (sortedLabels labels) :=
  List.sorted_insertionSort _ _

lemma embProbs_length (e : List Vec) (l : List String) (v : Vec) :
    (embProbs e l v).length = (sortedLabels l).length := by
  rw [embProbs, embExps, embLogits]
  simp

/-- **C7.** In the centroid scoring path the confidence is the probability at
`np.argmax` — the maximum of the soft-max distribution — and on exact ties of
the maximal probability the prediction is the lexically lowest label among
the tied ones: `np.argmax` picks the first maximal index, and the label list
is sorted ascending, so the predicted label is ≤ every label whose
probability equals the confidence. -/
theorem C7_argmax_lexical_tiebreak (embeddings : List Vec) (labels : List String)
    (emb : Vec) (tf_available : Bool) (hne : labels ≠ []) :
    (classify embeddings labels emb tf_available).confidence_score =
      (embProbs embeddings labels emb).getD
        (argmaxIdx (embProbs embeddings labels emb)) 0 ∧
    (∀ i, i < (embProbs embeddings labels emb).length →
      (embProbs embeddings labels emb).getD i 0 ≤
        (classify embeddings labels emb tf_available).confidence_score) ∧
    (∀ j, j < (embProbs embeddings labels emb).length →
      (embProbs embeddings labels emb).getD j 0 =
        (classify embeddings labels emb tf_available).confidence_score →
      (classify embeddings labels emb tf_available).predicted_style ≤
        (sortedLabels labels).getD j "") := by
  have hconf : (classify embeddings labels emb tf_available).confidence_score =
      (embProbs embeddings labels emb).getD
        (argmaxIdx (embProbs embeddings labels emb)) 0 := rfl
  have hpred : (classify embeddings labels emb tf_available).predicted_style =
      (sortedLabels labels).getD (argmaxIdx (embProbs embeddings labels emb)) "" := rfl
  refine ⟨hconf, ?_, ?_⟩
  · intro i hi
    rw [hconf]
    exact argmaxIdx_le _ i hi
  · intro j hj heq
    rw [hpred]
    have hbj : argmaxIdx (embProbs embeddings labels emb) ≤ j := by
      by_contra hcon
      push_neg at hcon
      have hlt := argmaxIdx_first (embProbs embeddings labels emb) j hcon
      rw [heq, hconf] at hlt
      exact lt_irrefl _ hlt
    have hlen := embProbs_length embeddings labels emb
    exact sorted_getD_le (sortedLabels labels) (sortedLabels_sorted labels) _ j hbj
      (hlen ▸ hj)

lemma embProbs_single_length : (embProbs [[1]] ["a"] [1]).length = 1 := by
  rw [embProbs_length]
  rfl

theorem C7_argmax_lexical_tiebreak_witness :
    (classify [[1]] ["a"] [1] true).confidence_score =
      (embProbs [[1]] ["a"] [1]).getD (argmaxIdx (embProbs [[1]] ["a"] [1])) 0 ∧
    (embProbs [[1]] ["a"] [1]).getD 0 0 ≤
      (classify [[1]] ["a"] [1] true).confidence_score :=
  ⟨(C7_argmax_lexical_tiebreak [[1]] ["a"] [1] true (by simp)).1,
   (C7_argmax_lexical_tiebreak [[1]] ["a"] [1] true (by simp)).2.1 0
     (by rw [embProbs_single_length]; omega)⟩
